import Mathlib

/-!
Verification development for the invoice ingestion service
(Hono + Supabase worker, `src/index.tsx`).

The handlers are embedded shallowly: each HTTP handler becomes a pure
Lean function from an explicit environment (the outcomes of the external
calls it performs: object storage, database, identity provider, the
Gemini model, the SMS gateway) and a request structure to a response
value together with a chronological trace of the externally visible
effects it issued.  JavaScript platform builtins used by the handlers
(`atob`, `String.prototype.trim`, `String.prototype.split`, the two
code-fence regexes, `JSON.parse`) are modelled as executable Lean
functions following their standard semantics; `JSON.parse` is modelled
on the JSON grammar without `\uXXXX` escapes and without exponent
notation, rejecting anything outside that fragment.

Strings throughout the model are lists of characters (`Str`).
-/

namespace Inv

abbrev Str := List Char

/-- JavaScript whitespace characters relevant to `String.prototype.trim`
(ASCII fragment). -/
def jsWs (c : Char) : Bool :=
  c == ' ' || c == '\t' || c == '\n' || c == '\r' || c == '\x0b' || c == '\x0c'

/-- Model of `String.prototype.trim`: drop whitespace from both ends. -/
def jsTrim (s : Str) : Str :=
  ((s.dropWhile jsWs).reverse.dropWhile jsWs).reverse

/-- Drop `p` from the front of `s`, if `s` starts with `p`. -/
def dropPref : Str → Str → Option Str
  | [], s => some s
  | _ :: _, [] => none
  | p :: ps, c :: cs => if p = c then dropPref ps cs else none

/-- Whether `s` starts with `p` (model of `String.prototype.startsWith`). -/
def hasPref (p s : Str) : Bool :=
  (dropPref p s).isSome

/-- Model of `String.prototype.split` with a single-character separator. -/
def splitOnChar (sep : Char) : Str → List Str
  | [] => [[]]
  | c :: cs =>
    let r := splitOnChar sep cs
    if c = sep then [] :: r
    else
      match r with
      | [] => [[c]]
      | h :: t => (c :: h) :: t

/-- The segment `fileData.split(',')[1]` of the upload handler, collapsed
with the subsequent falsiness check (`index.tsx:938-942`): `none` when the
delimiter is absent or the segment is empty. -/
def base64Part (s : Str) : Option Str :=
  match splitOnChar ',' s with
  | _ :: p :: _ => if p = [] then none else some p
  | _ => none

/-! ### Model of the `atob` builtin (forgiving-base64 decode) -/

/-- ASCII whitespace stripped by forgiving-base64. -/
def isB64Ws (c : Char) : Bool :=
  c == ' ' || c == '\t' || c == '\n' || c == '\x0c' || c == '\r'

/-- Value of a standard (non-URL-safe) base64 alphabet character. -/
def b64Val (c : Char) : Option ℕ :=
  let n := c.toNat
  if 65 ≤ n ∧ n ≤ 90 then some (n - 65)
  else if 97 ≤ n ∧ n ≤ 122 then some (n - 71)
  else if 48 ≤ n ∧ n ≤ 57 then some (n + 4)
  else if c = '+' then some 62
  else if c = '/' then some 63
  else none

/-- Remove trailing padding when the length is a multiple of four. -/
def stripPad (t : Str) : Str :=
  if t.length % 4 = 0 then
    match t.reverse with
    | '=' :: '=' :: r => r.reverse
    | '=' :: r => r.reverse
    | _ => t
  else t

/-- Assemble decoded bytes from 6-bit groups. -/
def b64Bytes : List ℕ → Option (List ℕ)
  | [] => some []
  | [_] => none
  | [a, b] => some [a * 4 + b / 16]
  | [a, b, c] => some [a * 4 + b / 16, b % 16 * 16 + c / 4]
  | a :: b :: c :: d :: rest =>
    match b64Bytes rest with
    | some bytes => some ([a * 4 + b / 16, b % 16 * 16 + c / 4, c % 4 * 64 + d] ++ bytes)
    | none => none

/-- Model of the JavaScript `atob` builtin (forgiving-base64): strip ASCII
whitespace, strip padding, reject length ≡ 1 (mod 4) and characters outside
the standard alphabet, then decode; `none` models the thrown
`InvalidCharacterError`. -/
def jsAtob (s : Str) : Option (List ℕ) :=
  let t := stripPad (s.filter (fun c => !(isB64Ws c)))
  if t.length % 4 = 1 then none
  else
    match t.mapM b64Val with
    | some vs => b64Bytes vs
    | none => none

/-! ### Content-type extraction: the regex `/data:([^;]+);/` -/

/-- Model of `fileData.match(/data:([^;]+);/)` (`index.tsx:954`): scan for
the first position where the literal `data:` is followed by a nonempty run
of non-semicolon characters and then a semicolon; return the captured run. -/
def findDataCT : Str → Option Str
  | [] => none
  | c :: cs =>
    match dropPref ("data:".toList) (c :: cs) with
    | some rest =>
      let run := rest.takeWhile (fun a => a != ';')
      if run ≠ [] ∧ rest.dropWhile (fun a => a != ';') ≠ [] then some run
      else findDataCT cs
    | none => findDataCT cs

/-! ### The invoice upload handler (`POST /api/invoices/upload`) -/

/-- The hardcoded Supabase project URL of the upload handler
(`index.tsx:929`). -/
def supaUrl : Str := "https://dmnxblcdaqnenggfyurw.supabase.co".toList

/-- A persisted invoice row as returned by the database insert. -/
structure Invoice where
  id : Str
  user_id : Str
  supplier_name : Str
  total_amount : ℚ
  file_url : Str
  status : Str
  created_at : Str
deriving DecidableEq, Repr

/-- Outcome of the database insert, supplied as part of the environment. -/
inductive InsertOutcome where
  | ok (id created_at : Str)
  | fail (msg code : Str)
deriving DecidableEq, Repr

/-- Outcome of the ClickSend notification step, supplied as part of the
environment: credentials absent, message sent, gateway returned non-ok,
or the send threw. -/
inductive NotifyOutcome where
  | noCreds
  | sent
  | httpFail (status : ℕ) (body : Str)
  | threw (msg : Str)
deriving DecidableEq, Repr

/-- Environment of one run of the upload handler: the two random filename
components and the outcomes of the external calls. -/
structure UploadEnv where
  timestamp : Str
  randomId : Str
  storageError : Option Str
  insert : InsertOutcome
  notify : NotifyOutcome
deriving DecidableEq, Repr

/-- Parsed JSON body of an upload request, plus the authorization header
(which the handler never reads). -/
structure UploadReq where
  authHeader : Option Str
  fileName : Option Str
  userId : Option Str
  fileData : Option Str
  supplierName : Option Str
  totalAmount : Option ℚ
deriving DecidableEq, Repr

/-- Response bodies the upload handler can produce. -/
inductive UploadBody where
  | errUserId
  | errFileData
  | errSupplier
  | errAmount
  | errInvalidFormat
  | errStorage (details : Str)
  | errInsert (details code : Str)
  | errInternal
  | ok (invoice : Invoice) (storageUrl : Str)
deriving DecidableEq, Repr

/-- The literal `error` message string of each upload response body. -/
def uploadMsg : UploadBody → Str
  | .errUserId => "User ID is required".toList
  | .errFileData => "File data is required".toList
  | .errSupplier => "Supplier name is required".toList
  | .errAmount => "Valid total amount is required".toList
  | .errInvalidFormat => "Invalid file data format".toList
  | .errStorage _ => "Storage upload failed".toList
  | .errInsert _ _ => "Database insert failed".toList
  | .errInternal => "Internal server error".toList
  | .ok _ _ => [].asString.toList

/-- An HTTP response: status code and typed body. -/
structure Resp (β : Type) where
  status : ℕ
  body : β
deriving DecidableEq, Repr

/-- Externally visible effects of the upload handler, in order. -/
inductive UploadEffect where
  | storagePut (path : Str) (bytes : List ℕ) (contentType : Str) (ok : Bool)
  | dbInsert (user_id supplier_name : Str) (total_amount : ℚ)
      (file_url status : Str) (ok : Bool)
  | sms
deriving DecidableEq, Repr

/-- JavaScript falsiness of an optional string (`undefined` or empty). -/
def strFalsy : Option Str → Bool
  | none => true
  | some s => s == []

/-- The check `!supplierName || !supplierName.trim()`. -/
def blankFalsy : Option Str → Bool
  | none => true
  | some s => jsTrim s == []

/-- The check `!totalAmount || totalAmount <= 0` on a number. -/
def amtFalsy : Option ℚ → Bool
  | none => true
  | some q => decide (q ≤ 0)

/-- Extension map from content types (`index.tsx:971-979`). -/
def typeMapExt (ct : Str) : Str :=
  if ct = "application/pdf".toList then "pdf".toList
  else if ct = "image/jpeg".toList then "jpg".toList
  else if ct = "image/jpg".toList then "jpg".toList
  else if ct = "image/png".toList then "png".toList
  else if ct = "image/gif".toList then "gif".toList
  else if ct = "image/webp".toList then "webp".toList
  else "bin".toList

/-- Derived file extension (`index.tsx:962-981`): last dot-separated
segment of the filename lower-cased, else mapped from the content type. -/
def extOf (fileName ct : Str) : Str :=
  if fileName.contains '.' then
    ((splitOnChar '.' fileName).getLastD []).map Char.toLower
  else typeMapExt ct

/-- The effective filename `body.fileName || 'invoice.pdf'`
(`index.tsx:896`). -/
def effFileName (req : UploadReq) : Str :=
  match req.fileName with
  | none => "invoice.pdf".toList
  | some f => if f = [] then "invoice.pdf".toList else f

/-- The content type of an upload: first `data:...;` capture, defaulting
to `application/octet-stream` (`index.tsx:954-955`). -/
def contentTypeOf (fd : Str) : Str :=
  (findDataCT fd).getD ("application/octet-stream".toList)

/-- The generated storage-safe filename
`timestamp_randomId.extension` (`index.tsx:984-986`). -/
def safeNameOf (env : UploadEnv) (req : UploadReq) : Str :=
  env.timestamp ++ "_".toList ++ env.randomId ++ ".".toList ++
    extOf (effFileName req) (contentTypeOf (req.fileData.getD []))

/-- The storage key `userId/safeFileName` (`index.tsx:991`). -/
def storagePathOf (env : UploadEnv) (req : UploadReq) : Str :=
  req.userId.getD [] ++ "/".toList ++ safeNameOf env req

/-- The derived public address of the stored object (`index.tsx:1016`). -/
def publicUrlOf (env : UploadEnv) (req : UploadReq) : Str :=
  supaUrl ++ "/storage/v1/object/public/invoices/".toList ++ storagePathOf env req

/-- The upload handler `POST /api/invoices/upload` (`index.tsx:890-1117`),
returning the response and the chronological effect trace. -/
def uploadHandler (env : UploadEnv) (req : UploadReq) :
    Resp UploadBody × List UploadEffect :=
  if strFalsy req.userId then (⟨400, .errUserId⟩, [])
  else if strFalsy req.fileData then (⟨400, .errFileData⟩, [])
  else if blankFalsy req.supplierName then (⟨400, .errSupplier⟩, [])
  else if amtFalsy req.totalAmount then (⟨400, .errAmount⟩, [])
  else
    let userId := req.userId.getD []
    let amount := req.totalAmount.getD 0
    match base64Part (req.fileData.getD []) with
    | none => (⟨400, .errInvalidFormat⟩, [])
    | some body =>
      match jsAtob body with
      | none => (⟨500, .errInternal⟩, [])
      | some bytes =>
        let contentType := contentTypeOf (req.fileData.getD [])
        let path := storagePathOf env req
        match env.storageError with
        | some msg => (⟨500, .errStorage msg⟩, [.storagePut path bytes contentType false])
        | none =>
          let url := publicUrlOf env req
          let supplier := jsTrim (req.supplierName.getD [])
          match env.insert with
          | .fail msg code =>
            (⟨500, .errInsert msg code⟩,
              [.storagePut path bytes contentType true,
               .dbInsert userId supplier amount url ("processed".toList) false])
          | .ok id created =>
            let inv : Invoice :=
              ⟨id, userId, supplier, amount, url, "processed".toList, created⟩
            let smsEff : List UploadEffect :=
              match env.notify with
              | .noCreds => []
              | _ => [.sms]
            (⟨200, .ok inv url⟩,
              [.storagePut path bytes contentType true,
               .dbInsert userId supplier amount url ("processed".toList) true] ++ smsEff)

/-- Whether an upload request passes validation and decoding, so that the
handler reaches the storage write. -/
def reachesStorage (req : UploadReq) : Prop :=
  strFalsy req.userId = false ∧ strFalsy req.fileData = false ∧
  blankFalsy req.supplierName = false ∧ amtFalsy req.totalAmount = false ∧
  ∃ b bytes, base64Part (req.fileData.getD []) = some b ∧ jsAtob b = some bytes

/-! ### JSON values and the model of the `JSON.parse` builtin

`JSON.parse` is modelled on the JSON grammar without `\uXXXX` escapes and
without exponent notation; inputs outside this fragment are rejected
(`none`), so every `some` result agrees with the builtin. -/

/-- A JSON value. -/
inductive JsVal where
  | null
  | bool (b : Bool)
  | num (q : ℚ)
  | str (s : Str)
  | arr (elems : List JsVal)
  | obj (fields : List (Str × JsVal))
deriving Repr

/-- JSON insignificant whitespace. -/
def jsSkipWs (s : Str) : Str :=
  s.dropWhile (fun c => c == ' ' || c == '\t' || c == '\n' || c == '\r')

/-- Single-character JSON string escapes (`\uXXXX` not modelled). -/
def escChar : Char → Option Char
  | '"' => some '"'
  | '\\' => some '\\'
  | '/' => some '/'
  | 'b' => some '\x08'
  | 'f' => some '\x0c'
  | 'n' => some '\n'
  | 'r' => some '\r'
  | 't' => some '\t'
  | _ => none

/-- Parse the remainder of a JSON string literal (after the opening
quote); raw control characters are rejected as in JSON. -/
def parseStringLit : Str → Option (Str × Str)
  | [] => none
  | c :: r =>
    if c = '"' then some ([], r)
    else if c = '\\' then
      match r with
      | [] => none
      | e :: r2 =>
        match escChar e with
        | some ec =>
          match parseStringLit r2 with
          | some (t, rr) => some (ec :: t, rr)
          | none => none
        | none => none
    else if c.toNat < 32 then none
    else
      match parseStringLit r with
      | some (t, rr) => some (c :: t, rr)
      | none => none

/-- Numeric value of a list of decimal digit characters. -/
def ofDigits (ds : Str) : ℕ :=
  ds.foldl (fun a c => 10 * a + (c.toNat - 48)) 0

/-- Parse an unsigned JSON number body with the given sign flag. -/
def parseNumCore (neg : Bool) (s1 : Str) : Option (JsVal × Str) :=
  let ds := s1.takeWhile Char.isDigit
  if ds = [] then none
  else if ds.length > 1 ∧ ds.head? = some '0' then none
  else
    let rest := s1.drop ds.length
    let intv : ℚ := (ofDigits ds : ℕ)
    match rest with
    | '.' :: r2 =>
      let fs := r2.takeWhile Char.isDigit
      if fs = [] then none
      else
        let q : ℚ := intv + (ofDigits fs : ℚ) / ((10 : ℚ) ^ fs.length)
        some (.num (if neg then -q else q), r2.drop fs.length)
    | _ => some (.num (if neg then -intv else intv), rest)

/-- Parse a JSON number (integer or decimal fraction; exponents are not
modelled and make the surrounding parse fail). -/
def parseNumber (s : Str) : Option (JsVal × Str) :=
  match s with
  | '-' :: r => parseNumCore true r
  | r => parseNumCore false r

mutual

/-- Parse one JSON value (fuel-indexed). -/
def parseVal : ℕ → Str → Option (JsVal × Str)
  | 0, _ => none
  | f + 1, s =>
    match jsSkipWs s with
    | [] => none
    | c :: r =>
      if c = '{' then
        match jsSkipWs r with
        | '}' :: r2 => some (.obj [], r2)
        | _ =>
          match parseMembers f r with
          | some (ms, r2) => some (.obj ms, r2)
          | none => none
      else if c = '[' then
        match jsSkipWs r with
        | ']' :: r2 => some (.arr [], r2)
        | _ =>
          match parseElems f r with
          | some (es, r2) => some (.arr es, r2)
          | none => none
      else if c = '"' then
        match parseStringLit r with
        | some (t, r2) => some (.str t, r2)
        | none => none
      else if c = 't' then
        match dropPref ("rue".toList) r with
        | some r2 => some (.bool true, r2)
        | none => none
      else if c = 'f' then
        match dropPref ("alse".toList) r with
        | some r2 => some (.bool false, r2)
        | none => none
      else if c = 'n' then
        match dropPref ("ull".toList) r with
        | some r2 => some (.null, r2)
        | none => none
      else parseNumber (c :: r)

/-- Parse the members of a JSON object, after its opening brace. -/
def parseMembers : ℕ → Str → Option (List (Str × JsVal) × Str)
  | 0, _ => none
  | f + 1, s =>
    match jsSkipWs s with
    | '"' :: r =>
      match parseStringLit r with
      | some (k, r1) =>
        match jsSkipWs r1 with
        | ':' :: r2 =>
          match parseVal f r2 with
          | some (v, r3) =>
            match jsSkipWs r3 with
            | ',' :: r4 =>
              match parseMembers f r4 with
              | some (ms, r5) => some ((k, v) :: ms, r5)
              | none => none
            | '}' :: r4 => some ([(k, v)], r4)
            | _ => none
          | none => none
        | _ => none
      | none => none
    | _ => none

/-- Parse the elements of a JSON array, after its opening bracket. -/
def parseElems : ℕ → Str → Option (List JsVal × Str)
  | 0, _ => none
  | f + 1, s =>
    match parseVal f s with
    | some (v, r1) =>
      match jsSkipWs r1 with
      | ',' :: r2 =>
        match parseElems f r2 with
        | some (es, r3) => some (v :: es, r3)
        | none => none
      | ']' :: r2 => some ([v], r2)
      | _ => none
    | none => none

end

/-- Model of `JSON.parse` on the fragment described above. -/
def jsonParse (s : Str) : Option JsVal :=
  match parseVal (s.length + 1) s with
  | some (v, rest) => if jsSkipWs rest = [] then some v else none
  | none => none

/-! ### Code-fence stripping (the regexes at `index.tsx:362-368`) -/

/-- Drop one leading newline, as the trailing `\n?` of the fence regexes. -/
def dropNL : Str → Str
  | [] => []
  | c :: t => if c = '\n' then t else c :: t

theorem dropNL_length_le (r : Str) : (dropNL r).length ≤ r.length := by
  cases r with
  | nil => simp [dropNL]
  | cons c t =>
    simp only [dropNL]
    split <;> simp

theorem dropPref_length {p l r : Str} (h : dropPref p l = some r) :
    r.length + p.length = l.length := by
  induction p generalizing l r with
  | nil => simp [dropPref] at h; simp [h]
  | cons a ps ih =>
    cases l with
    | nil => simp [dropPref] at h
    | cons c cs =>
      simp only [dropPref] at h
      split at h
      · have := ih h
        simp [List.length_cons]
        omega
      · exact absurd h (by simp)

/-- Model of a global regex replace of `pat ++ "\n"?` by the empty string,
where `pat = c :: pt`: scan left to right, removing every occurrence of
the pattern together with one directly following newline. -/
def stripFence (c : Char) (pt : Str) : Str → Str
  | [] => []
  | a :: s =>
    match h : dropPref (c :: pt) (a :: s) with
    | some rest => stripFence c pt (dropNL rest)
    | none => a :: stripFence c pt s
termination_by s => s.length
decreasing_by
  · have h1 := dropPref_length h
    have h2 := dropNL_length_le rest
    simp only [List.length_cons] at h1 ⊢
    omega
  · simp only [List.length_cons]
    omega

/-- The pattern tail of the lang-tagged fence regex; the full pattern is
a backtick followed by this. -/
def patJsonTail : Str := ['`', '`', 'j', 's', 'o', 'n']

/-- The pattern tail of the bare fence regex. -/
def patTickTail : Str := ['`', '`']

/-- The strip-and-trim step of the analyze handler (`index.tsx:359-368`):
trim, strip code-fence markers if present, trim again. -/
def stripFences (s : Str) : Str :=
  let t := jsTrim s
  if hasPref ('`' :: patJsonTail) t then
    jsTrim (stripFence '`' patTickTail (stripFence '`' patJsonTail t))
  else if hasPref ('`' :: patTickTail) t then
    jsTrim (stripFence '`' patTickTail t)
  else t

/-! ### The analyze handler (`POST /api/invoices/analyze`) -/

/-- The field name `supplier_name` read from the parsed reply
(`index.tsx:376`). -/
def key1 : Str := ['s', 'u', 'p', 'p', 'l', 'i', 'e', 'r', '_', 'n', 'a', 'm', 'e']

/-- The field name `total_amount` read from the parsed reply
(`index.tsx:377`). -/
def key2 : Str := ['t', 'o', 't', 'a', 'l', '_', 'a', 'm', 'o', 'u', 'n', 't']

/-- JavaScript truthiness of a JSON value (`NaN` not modelled). -/
def jsTruthy : JsVal → Bool
  | .null => false
  | .bool b => b
  | .num q => decide (q ≠ 0)
  | .str s => s != []
  | .arr _ => true
  | .obj _ => true

/-- Property lookup on a parsed JSON value: JavaScript objects built by
`JSON.parse` keep the last of duplicate keys. -/
def lookupLast (k : Str) : List (Str × JsVal) → Option JsVal
  | [] => none
  | (k2, v) :: rest =>
    match lookupLast k rest with
    | some r => some r
    | none => if k2 = k then some v else none

/-- `extracted.key` on a parsed value: objects have fields, other values
give `undefined`. -/
def getField (v : JsVal) (k : Str) : Option JsVal :=
  match v with
  | .obj fs => lookupLast k fs
  | _ => none

/-- The coercion `x || null` applied to a possibly-undefined field. -/
def orNull : Option JsVal → JsVal
  | none => .null
  | some v => if jsTruthy v then v else .null

/-- Outcome of the Gemini call, supplied as part of the environment: the
`fetch` threw, a non-ok HTTP response with its status and body text, an
ok response whose JSON body could not be parsed, an ok response without a
text part, or an ok response with the given text content. -/
inductive GeminiOutcome where
  | fetchErr (msg : Str)
  | httpError (status : ℕ) (statusText body : Str)
  | badJson (msg : Str)
  | noContent
  | content (text : Str)
deriving Repr

/-- Environment of one run of the analyze handler. -/
structure AnalyzeEnv where
  apiKey : Option Str
  gemini : GeminiOutcome
deriving Repr

/-- Parsed JSON body of an analyze request, plus the authorization header
(which the handler never reads). -/
structure AnalyzeReq where
  authHeader : Option Str
  fileData : Option Str
  mimeType : Option Str
deriving Repr

/-- Response bodies the analyze handler can produce.  `noContentBody`,
`parseFail` and the catch-all crash body carry explicit
`supplier_name: null, total_amount: null` fields in the JSON response;
the network, API and invalid-JSON error bodies do not. -/
inductive AnalyzeBody where
  | configError
  | fileDataRequired
  | networkError (details : Str)
  | apiError (status : ℕ) (statusText details : Str)
  | invalidJson (details : Str)
  | noContentBody
  | parseFail (raw : Str)
  | ok (supplier_name total_amount : JsVal)
deriving Repr

/-- Whether an analyze response body carries explicit null
`supplier_name`/`total_amount` fields (the degraded shape). -/
def AnalyzeBody.hasNullFields : AnalyzeBody → Bool
  | .noContentBody => true
  | .parseFail _ => true
  | _ => false

/-- The content-parsing step of the analyze handler
(`index.tsx:356-391`): strip fences, `JSON.parse`, read the two fields
with the `|| null` coercion; a parse failure yields the degraded body. -/
def parseContentStep (text : Str) : Resp AnalyzeBody :=
  match jsonParse (stripFences text) with
  | none => ⟨200, .parseFail text⟩
  | some v =>
    ⟨200, .ok (orNull (getField v key1)) (orNull (getField v key2))⟩

/-- The handler `POST /api/invoices/analyze` (`index.tsx:171-407`). -/
def analyzeHandler (env : AnalyzeEnv) (req : AnalyzeReq) : Resp AnalyzeBody :=
  match env.apiKey with
  | none => ⟨500, .configError⟩
  | some _ =>
    if strFalsy req.fileData then ⟨400, .fileDataRequired⟩
    else
      match env.gemini with
      | .fetchErr m => ⟨500, .networkError m⟩
      | .httpError st stx b => ⟨500, .apiError st stx b⟩
      | .badJson m => ⟨500, .invalidJson m⟩
      | .noContent => ⟨200, .noContentBody⟩
      | .content text => parseContentStep text

/-! ### The canonical extraction reply and its parse -/

/-- The members part of the canonical reply object, after the opening
brace: `"supplier_name":"<s>","total_amount":<ds>}`. -/
def canonInner (s ds : Str) : Str :=
  '"' :: (key1 ++ ('"' :: ':' :: '"' ::
    (s ++ ('"' :: ',' :: '"' ::
      (key2 ++ ('"' :: ':' :: (ds ++ ['}'])))))))

/-- The canonical reply object `{"supplier_name":"<s>","total_amount":<ds>}`. -/
def canonJson (s ds : Str) : Str := '{' :: canonInner s ds

/-- The canonical reply wrapped in a lang-tagged code fence. -/
def fencedTagged (s ds : Str) : Str :=
  ('`' :: patJsonTail) ++ ('\n' :: (canonJson s ds ++ ('\n' :: '`' :: '`' :: ['`'])))

/-- The canonical reply wrapped in a bare code fence. -/
def fencedBare (s ds : Str) : Str :=
  ('`' :: patTickTail) ++ ('\n' :: (canonJson s ds ++ ('\n' :: '`' :: '`' :: ['`'])))

/-- A string is representable in a JSON string literal of the modelled
fragment and inert for fence stripping. -/
abbrev sClean (s : Str) : Prop :=
  ∀ c ∈ s, c ≠ '"' ∧ c ≠ '\\' ∧ 32 ≤ c.toNat ∧ c ≠ '`'


/-! ### Organization endpoints (`GET /api/organizations`,
`POST /api/organizations/create`) -/

/-- Credential a Supabase client is constructed with: the anon key plus
the caller's own `Authorization` header, or the elevated service-role key. -/
inductive Cred where
  | anonWithHeader (header : Str)
  | serviceRole
deriving DecidableEq, Repr

/-- Outcome of `supabase.auth.getUser(token)`. -/
inductive AuthOutcome where
  | err (msg : Str)
  | noUser
  | user (id : Str)
deriving DecidableEq, Repr

/-- An organization row. -/
structure Org where
  id : Str
  name : Str
  tax_id : Option Str
  created_at : Str
deriving DecidableEq, Repr

/-- One membership row joined with its organization. -/
structure Membership where
  role : Str
  org : Org
deriving DecidableEq, Repr

/-- A database error. -/
structure DbErr where
  msg : Str
  code : Str
deriving DecidableEq, Repr

/-- Externally visible effects of the organization handlers, in order. -/
inductive OrgEffect where
  | clientCreate (cred : Cred)
  | authGetUser
  | selectMemberships (user_id : Str)
  | insertOrg (name : Str) (tax_id : Option Str)
  | insertMember (organization_id user_id role : Str)
  | deleteOrg (id : Str)
deriving DecidableEq, Repr

/-- Whether an organization-handler effect touches organization or
membership rows in the database. -/
def OrgEffect.isDb : OrgEffect → Bool
  | .clientCreate _ => false
  | .authGetUser => false
  | _ => true

/-- Environment of `GET /api/organizations`. -/
structure OrgListEnv where
  anonKey : Option Str
  auth : AuthOutcome
  memberships : Except DbErr (List Membership)
deriving Repr

/-- Response bodies of `GET /api/organizations`. -/
inductive OrgListBody where
  | unauthorized
  | configError
  | fetchFailed (details code : Str)
  | ok (organizations : List (Org × Str))
deriving DecidableEq, Repr

/-- The handler `GET /api/organizations` (`index.tsx:515-646`). -/
def orgListHandler (env : OrgListEnv) (authHeader : Option Str) :
    Resp OrgListBody × List OrgEffect :=
  match authHeader with
  | none => (⟨401, .unauthorized⟩, [])
  | some h =>
    match env.anonKey with
    | none => (⟨500, .configError⟩, [])
    | some _ =>
      let pre : List OrgEffect := [.clientCreate (.anonWithHeader h), .authGetUser]
      match env.auth with
      | .err _ => (⟨401, .unauthorized⟩, pre)
      | .noUser => (⟨401, .unauthorized⟩, pre)
      | .user uid =>
        match env.memberships with
        | .error e => (⟨500, .fetchFailed e.msg e.code⟩, pre ++ [.selectMemberships uid])
        | .ok ms =>
          (⟨200, .ok (ms.map (fun m => (m.org, m.role)))⟩, pre ++ [.selectMemberships uid])

/-- Environment of `POST /api/organizations/create`. -/
structure OrgCreateEnv where
  anonKey : Option Str
  auth : AuthOutcome
  orgInsert : Except DbErr Org
  memberInsert : Option DbErr
deriving Repr

/-- Request of `POST /api/organizations/create`. -/
structure OrgCreateReq where
  authHeader : Option Str
  name : Option Str
  tax_id : Option Str
deriving DecidableEq, Repr

/-- Response bodies of `POST /api/organizations/create`. -/
inductive OrgCreateBody where
  | unauthorized
  | nameRequired
  | configError
  | orgInsertFailed (details code : Str)
  | memberInsertFailed (details code : Str)
  | ok (organization : Org) (role : Str)
deriving DecidableEq, Repr

/-- The handler `POST /api/organizations/create` (`index.tsx:649-835`). -/
def orgCreateHandler (env : OrgCreateEnv) (req : OrgCreateReq) :
    Resp OrgCreateBody × List OrgEffect :=
  match req.authHeader with
  | none => (⟨401, .unauthorized⟩, [])
  | some h =>
    if blankFalsy req.name then (⟨400, .nameRequired⟩, [])
    else
      match env.anonKey with
      | none => (⟨500, .configError⟩, [])
      | some _ =>
        let pre : List OrgEffect := [.clientCreate (.anonWithHeader h), .authGetUser]
        match env.auth with
        | .err _ => (⟨401, .unauthorized⟩, pre)
        | .noUser => (⟨401, .unauthorized⟩, pre)
        | .user uid =>
          let nm := jsTrim (req.name.getD [])
          let tid := match req.tax_id with
            | none => none
            | some t => if jsTrim t = [] then none else some (jsTrim t)
          match env.orgInsert with
          | .error e =>
            (⟨500, .orgInsertFailed e.msg e.code⟩, pre ++ [.insertOrg nm tid])
          | .ok org =>
            match env.memberInsert with
            | some e =>
              (⟨500, .memberInsertFailed e.msg e.code⟩,
                pre ++ [.insertOrg nm tid,
                        .insertMember org.id uid ("owner".toList),
                        .deleteOrg org.id])
            | none =>
              (⟨200, .ok org ("owner".toList)⟩,
                pre ++ [.insertOrg nm tid,
                        .insertMember org.id uid ("owner".toList)])

/-- The conditions under which organization creation reaches the
organization insert. -/
def createReaches (env : OrgCreateEnv) (req : OrgCreateReq) : Prop :=
  (∃ h, req.authHeader = some h) ∧ blankFalsy req.name = false ∧
  (∃ k, env.anonKey = some k) ∧ (∃ uid, env.auth = .user uid)

/-- The credentials with which the organization handlers construct their
data-store clients. -/
def credsOf (tr : List OrgEffect) : List Cred :=
  tr.filterMap (fun e => match e with | .clientCreate c => some c | _ => none)

/-! ### The client session freshness guard (`getFreshSession`,
`index.tsx:1483-1516`) -/

/-- Outcome of one `supabaseClient.auth.getSession()` call: the fetch
errored, there is no session, or a session with the given access token. -/
inductive SessAtt where
  | fetchErr (msg : Str)
  | noSession
  | session (tok : Str)
deriving DecidableEq, Repr

/-- The guard retries when the session or its token is falsy
(`!session || !session.access_token`). -/
def SessAtt.absent : SessAtt → Bool
  | .fetchErr _ => false
  | .noSession => true
  | .session t => t == []

/-- Result of the guard: a thrown error message or a token. -/
inductive GfsRes where
  | thrown (msg : Str)
  | ok (tok : Str)
deriving DecidableEq, Repr

/-- Observable behaviour of one `getFreshSession()` invocation: its
result, how many session fetches it performed, and the delays (ms) it
inserted between them. -/
structure GfsOut where
  res : GfsRes
  fetches : ℕ
  delaysMs : List ℕ
deriving DecidableEq, Repr

/-- The error message for an exhausted retry. -/
def noActiveMsg : Str := "No active session. Please sign in again.".toList

/-- The error message prefix for a session fetch error. -/
def sessErrPre : Str := "Failed to get session: ".toList

/-- Model of `getFreshSession` (`index.tsx:1483-1516`): the outcomes of
the at most two session fetches are given as `a1`, `a2`. -/
def getFreshSession (a1 a2 : SessAtt) : GfsOut :=
  let second : GfsOut :=
    match a2 with
    | .fetchErr m => ⟨.thrown (sessErrPre ++ m), 2, [1000]⟩
    | .noSession => ⟨.thrown noActiveMsg, 2, [1000]⟩
    | .session t => if t = [] then ⟨.thrown noActiveMsg, 2, [1000]⟩ else ⟨.ok t, 2, [1000]⟩
  match a1 with
  | .fetchErr m => ⟨.thrown (sessErrPre ++ m), 1, []⟩
  | .noSession => second
  | .session t => if t = [] then second else ⟨.ok t, 1, []⟩

end Inv

namespace Inv

/-- Claim C9: the session freshness guard makes at most two fetch
attempts; a first attempt without a token waits 1000 ms and retries
exactly once; two token-less attempts throw the no-active-session error;
a fetch error on the first attempt propagates immediately, unretried. -/
theorem claimC9 (a1 a2 : SessAtt) :
    (getFreshSession a1 a2).fetches ≤ 2 ∧
    (a1.absent = true →
      (getFreshSession a1 a2).fetches = 2 ∧ (getFreshSession a1 a2).delaysMs = [1000]) ∧
    (a1.absent = true → a2.absent = true →
      (getFreshSession a1 a2).res = .thrown noActiveMsg) ∧
    (∀ m, a1 = .fetchErr m →
      (getFreshSession a1 a2).res = .thrown (sessErrPre ++ m) ∧
      (getFreshSession a1 a2).fetches = 1 ∧ (getFreshSession a1 a2).delaysMs = []) := by
  cases a1 <;> cases a2 <;>
    simp [getFreshSession, SessAtt.absent] <;>
    (try split_ifs) <;> simp_all

/-- Witness for C9 at a concrete pair of attempts. -/
theorem claimC9_witness :
    (getFreshSession .noSession (.session ("tok".toList))).fetches = 2 ∧
    (getFreshSession .noSession (.session ("tok".toList))).delaysMs = [1000] :=
  (claimC9 .noSession (.session ("tok".toList))).2.1 (by decide)

/-- Claim C10: organization creation succeeds exactly when both the
organization insert and the owner-membership insert succeed; a success
inserted an owner membership; and when the membership insert fails after
a successful organization insert, the handler deletes the just-created
organization row and responds with the 500 error. -/
theorem claimC10 (env : OrgCreateEnv) (req : OrgCreateReq) :
    ((orgCreateHandler env req).1.status = 200 ↔
      createReaches env req ∧ (∃ org, env.orgInsert = .ok org) ∧ env.memberInsert = none) ∧
    ((orgCreateHandler env req).1.status = 200 →
      ∃ oid uid, OrgEffect.insertMember oid uid ("owner".toList) ∈ (orgCreateHandler env req).2) ∧
    (∀ org e, env.orgInsert = .ok org → env.memberInsert = some e →
      createReaches env req →
      OrgEffect.deleteOrg org.id ∈ (orgCreateHandler env req).2 ∧
      (orgCreateHandler env req).2.getLast? = some (OrgEffect.deleteOrg org.id) ∧
      (orgCreateHandler env req).1 = ⟨500, .memberInsertFailed e.msg e.code⟩) := by
  rcases hah : req.authHeader with _ | h <;>
  rcases hak : env.anonKey with _ | k <;>
  rcases hau : env.auth with m | _ | uid <;>
  rcases hoi : env.orgInsert with e0 | org0 <;>
  rcases hmi : env.memberInsert with _ | e1 <;>
  by_cases hbn : blankFalsy req.name <;>
  simp_all [orgCreateHandler, createReaches]

/-- Witness for C10: a concrete run whose membership insert fails. -/
theorem claimC10_witness :
    OrgEffect.deleteOrg ("org1".toList) ∈
      (orgCreateHandler
        ⟨some ("k".toList), .user ("u".toList),
         .ok ⟨("org1".toList), ("Acme".toList), none, ("t".toList)⟩,
         some ⟨("denied".toList), ("42501".toList)⟩⟩
        ⟨some ("Bearer tok".toList), some ("Acme".toList), none⟩).2 ∧
    (orgCreateHandler
        ⟨some ("k".toList), .user ("u".toList),
         .ok ⟨("org1".toList), ("Acme".toList), none, ("t".toList)⟩,
         some ⟨("denied".toList), ("42501".toList)⟩⟩
        ⟨some ("Bearer tok".toList), some ("Acme".toList), none⟩).1 =
      ⟨500, .memberInsertFailed ("denied".toList) ("42501".toList)⟩ := by
  have h := (claimC10
    ⟨some ("k".toList), .user ("u".toList),
     .ok ⟨("org1".toList), ("Acme".toList), none, ("t".toList)⟩,
     some ⟨("denied".toList), ("42501".toList)⟩⟩
    ⟨some ("Bearer tok".toList), some ("Acme".toList), none⟩).2.2
    ⟨("org1".toList), ("Acme".toList), none, ("t".toList)⟩
    ⟨("denied".toList), ("42501".toList)⟩ rfl rfl
    ⟨⟨_, rfl⟩, by decide, ⟨_, rfl⟩, ⟨_, rfl⟩⟩
  exact ⟨h.1, h.2.2⟩

/-- Claim C3: every data-store client constructed by the two
organization-scoped handlers carries the caller's own bearer token (the
anon key plus the caller's Authorization header), never the elevated
service-role credential. -/
theorem claimC3 (lenv : OrgListEnv) (ah : Option Str)
    (cenv : OrgCreateEnv) (req : OrgCreateReq) :
    (∀ c ∈ credsOf (orgListHandler lenv ah).2, ∃ h, ah = some h ∧ c = .anonWithHeader h) ∧
    (∀ c ∈ credsOf (orgCreateHandler cenv req).2,
      ∃ h, req.authHeader = some h ∧ c = .anonWithHeader h) := by
  constructor
  · rcases ah with _ | h <;>
    rcases lenv with ⟨ak, au, ms⟩ <;>
    rcases ak with _ | k <;>
    rcases au with m | _ | uid <;>
    rcases ms with e | l <;>
    simp [orgListHandler, credsOf]
  · rcases req with ⟨ah2, nm, tid⟩ <;>
    rcases ah2 with _ | h <;>
    rcases cenv with ⟨ak, au, oi, mi⟩ <;>
    rcases ak with _ | k <;>
    rcases au with m | _ | uid <;>
    rcases oi with e | org0 <;>
    rcases mi with _ | e1 <;>
    by_cases hbn : blankFalsy nm <;>
    simp_all [orgCreateHandler, credsOf]

/-- Witness for C3 at a concrete request that constructs a client. -/
theorem claimC3_witness :
    ∃ h, (some ("Bearer tok".toList) : Option Str) = some h ∧
      Cred.anonWithHeader ("Bearer tok".toList) = .anonWithHeader h :=
  (claimC3 ⟨some ("k".toList), .user ("u".toList), .ok []⟩ (some ("Bearer tok".toList))
      ⟨some ("k".toList), .user ("u".toList), .ok ⟨("o".toList), ("n".toList), none, ("t".toList)⟩, none⟩
      ⟨some ("Bearer tok".toList), some ("Org".toList), none⟩).1
    (.anonWithHeader ("Bearer tok".toList)) (by decide)

/-- Claim C5: upload validation checks userId, then the file payload,
then the supplier name (non-blank after trim), then the total amount
(strictly positive); the first violation wins, produces a 400 response
whose error message names the offending field, and nothing is written to
storage or the database. -/
theorem claimC5 (env : UploadEnv) (req : UploadReq) :
    (strFalsy req.userId = true →
      uploadHandler env req = (⟨400, .errUserId⟩, [])) ∧
    (strFalsy req.userId = false → strFalsy req.fileData = true →
      uploadHandler env req = (⟨400, .errFileData⟩, [])) ∧
    (strFalsy req.userId = false → strFalsy req.fileData = false →
      blankFalsy req.supplierName = true →
      uploadHandler env req = (⟨400, .errSupplier⟩, [])) ∧
    (strFalsy req.userId = false → strFalsy req.fileData = false →
      blankFalsy req.supplierName = false → amtFalsy req.totalAmount = true →
      uploadHandler env req = (⟨400, .errAmount⟩, [])) ∧
    uploadMsg .errUserId = ("User ID is required".toList) ∧
    uploadMsg .errFileData = ("File data is required".toList) ∧
    uploadMsg .errSupplier = ("Supplier name is required".toList) ∧
    uploadMsg .errAmount = ("Valid total amount is required".toList) := by
  refine ⟨?_, ?_, ?_, ?_, by decide, by decide, by decide, by decide⟩ <;>
    intros <;> simp_all [uploadHandler]

/-- Witness for C5: an upload with `totalAmount = 0` is rejected with the
validation error naming the total amount, before any effect. -/
theorem claimC5_witness :
    uploadHandler
      ⟨("123".toList), ("abc".toList), none, .ok ("id1".toList) ("t1".toList), .noCreds⟩
      ⟨none, some ("invoice.pdf".toList), some ("u1".toList),
       some ("data:application/pdf;base64,AAAA".toList), some ("Acme".toList), some 0⟩ =
      (⟨400, .errAmount⟩, []) ∧
    uploadMsg .errAmount = ("Valid total amount is required".toList) := by
  have h := claimC5
    ⟨("123".toList), ("abc".toList), none, .ok ("id1".toList) ("t1".toList), .noCreds⟩
    ⟨none, some ("invoice.pdf".toList), some ("u1".toList),
     some ("data:application/pdf;base64,AAAA".toList), some ("Acme".toList), some 0⟩
  exact ⟨h.2.2.2.1 (by decide) (by decide) (by decide) (by decide), h.2.2.2.2.2.2.2⟩

/-- Helper: the notification step trace never contains a database
insert. -/
theorem dbInsert_not_mem_sms (n : NotifyOutcome) (u s : Str) (a : ℚ) (fu st : Str) (ok : Bool) :
    UploadEffect.dbInsert u s a fu st ok ∉
      (match n with
       | NotifyOutcome.noCreds => ([] : List UploadEffect)
       | _ => [UploadEffect.sms]) := by
  cases n <;> simp

/-- Claim C2: when the storage upload fails the handler responds 500
with the storage error and attempts no database insert; and every
database insert in a trace is preceded by a successful storage write
whose derived public address is exactly the inserted file_url. -/
theorem claimC2 (env : UploadEnv) (req : UploadReq) :
    (∀ msg, env.storageError = some msg → reachesStorage req →
      (uploadHandler env req).1 = ⟨500, .errStorage msg⟩ ∧
      ∀ u s a fu st ok, UploadEffect.dbInsert u s a fu st ok ∉ (uploadHandler env req).2) ∧
    (∀ u s a fu st ok, UploadEffect.dbInsert u s a fu st ok ∈ (uploadHandler env req).2 →
      ∃ t1 t2 bs ct, (uploadHandler env req).2 =
          t1 ++ UploadEffect.storagePut (storagePathOf env req) bs ct true :: t2 ∧
        UploadEffect.dbInsert u s a fu st ok ∈ t2 ∧
        fu = publicUrlOf env req) := by
  constructor
  · rintro msg hmsg ⟨h1, h2, h3, h4, b, bytes, hb, hbytes⟩
    simp [uploadHandler, h1, h2, h3, h4, hb, hbytes, hmsg]
  · rintro u s a fu st ok hmem
    rcases hU : uploadHandler env req with ⟨resp, tr⟩
    rw [hU] at hmem
    unfold uploadHandler at hU
    split at hU
    · cases hU; simp at hmem
    · split at hU
      · cases hU; simp at hmem
      · split at hU
        · cases hU; simp at hmem
        · split at hU
          · cases hU; simp at hmem
          · split at hU
            · cases hU; simp at hmem
            · split at hU
              · cases hU; simp at hmem
              · split at hU
                · cases hU; simp at hmem
                · split at hU
                  · cases hU
                    simp only [List.mem_cons, List.not_mem_nil, or_false] at hmem
                    rcases hmem with h | h
                    · cases h
                    · cases h
                      exact ⟨[], _, _, _, rfl, by simp, rfl⟩
                  · cases hU
                    rcases List.mem_append.mp hmem with h | h
                    · simp only [List.mem_cons, List.not_mem_nil, or_false] at h
                      rcases h with h | h
                      · cases h
                      · cases h
                        exact ⟨[], _, _, _, rfl, by simp, rfl⟩
                    · exact absurd h (dbInsert_not_mem_sms _ u s a fu st ok)

/-- Witness for C2: a concrete run whose storage upload fails. -/
theorem claimC2_witness :
    (uploadHandler
      ⟨("123".toList), ("abc".toList), some ("bucket quota".toList),
       .ok ("id1".toList) ("t1".toList), .noCreds⟩
      ⟨none, some ("invoice.pdf".toList), some ("u1".toList),
       some ("data:application/pdf;base64,AAAA".toList), some ("Acme".toList), some 5⟩).1 =
      ⟨500, .errStorage ("bucket quota".toList)⟩ :=
  ((claimC2
    ⟨("123".toList), ("abc".toList), some ("bucket quota".toList),
     .ok ("id1".toList) ("t1".toList), .noCreds⟩
    ⟨none, some ("invoice.pdf".toList), some ("u1".toList),
     some ("data:application/pdf;base64,AAAA".toList), some ("Acme".toList), some 5⟩).1
    ("bucket quota".toList) rfl
    ⟨by decide, by decide, by decide, by decide, ("AAAA".toList), ([0, 0, 0] : List ℕ),
     by decide, by decide⟩).1

/-- Claim C8: the response of the upload handler is the same for every
notification outcome; and when all prior steps succeed the response is
the 200 success carrying the created invoice and the storage URL. -/
theorem claimC8 (env : UploadEnv) (req : UploadReq) :
    (∀ o1 o2 : NotifyOutcome,
      (uploadHandler { env with notify := o1 } req).1 =
      (uploadHandler { env with notify := o2 } req).1) ∧
    (∀ id created, env.insert = .ok id created → env.storageError = none →
      reachesStorage req →
      (uploadHandler env req).1 =
        ⟨200, .ok ⟨id, req.userId.getD [], jsTrim (req.supplierName.getD []),
            req.totalAmount.getD 0, publicUrlOf env req, ("processed".toList), created⟩
          (publicUrlOf env req)⟩) := by
  constructor
  · intro o1 o2
    rcases env with ⟨ts, rid, se, ins, no⟩
    by_cases h1 : strFalsy req.userId <;>
    by_cases h2 : strFalsy req.fileData <;>
    by_cases h3 : blankFalsy req.supplierName <;>
    by_cases h4 : amtFalsy req.totalAmount <;>
    rcases hb : base64Part (req.fileData.getD []) with _ | b <;>
    simp_all [uploadHandler] <;>
    rcases ha : jsAtob b with _ | bytes <;>
    rcases se with _ | msg <;>
    rcases ins with ⟨id, cr⟩ | ⟨m, co⟩ <;>
    simp_all [uploadHandler] <;>
    rfl
  · rintro id created hins hse ⟨h1, h2, h3, h4, b, bytes, hb, hbytes⟩
    simp [uploadHandler, h1, h2, h3, h4, hb, hbytes, hse, hins]

/-- Witness for C8: a concrete fully-successful run whose notification
step throws is still the 200 success response. -/
theorem claimC8_witness :
    (uploadHandler
      ⟨("123".toList), ("abc".toList), none, .ok ("id1".toList) ("t1".toList),
       .threw ("network down".toList)⟩
      ⟨none, some ("invoice.pdf".toList), some ("u1".toList),
       some ("data:application/pdf;base64,AAAA".toList), some ("Acme".toList), some 5⟩).1 =
      ⟨200, .ok ⟨("id1".toList), ("u1".toList), jsTrim ("Acme".toList), (5 : ℚ),
          publicUrlOf
            ⟨("123".toList), ("abc".toList), none, .ok ("id1".toList) ("t1".toList),
             .threw ("network down".toList)⟩
            ⟨none, some ("invoice.pdf".toList), some ("u1".toList),
             some ("data:application/pdf;base64,AAAA".toList), some ("Acme".toList), some 5⟩,
          ("processed".toList), ("t1".toList)⟩
        (publicUrlOf
            ⟨("123".toList), ("abc".toList), none, .ok ("id1".toList) ("t1".toList),
             .threw ("network down".toList)⟩
            ⟨none, some ("invoice.pdf".toList), some ("u1".toList),
             some ("data:application/pdf;base64,AAAA".toList), some ("Acme".toList), some 5⟩)⟩ :=
  (claimC8
    ⟨("123".toList), ("abc".toList), none, .ok ("id1".toList) ("t1".toList),
     .threw ("network down".toList)⟩
    ⟨none, some ("invoice.pdf".toList), some ("u1".toList),
     some ("data:application/pdf;base64,AAAA".toList), some ("Acme".toList), some 5⟩).2
    ("id1".toList) ("t1".toList) rfl rfl
    ⟨by decide, by decide, by decide, by decide, ("AAAA".toList), ([0, 0, 0] : List ℕ),
     by decide, by decide⟩

/-- Counterexample for C1 as stated: a concrete upload request with no
authorization header is not rejected with 401; it runs to completion,
writing to storage and inserting the invoice row. -/
theorem claimC1_counterexample :
    (⟨none, some ("invoice.pdf".toList), some ("u1".toList),
      some ("data:application/pdf;base64,AAAA".toList), some ("Acme".toList),
      some 5⟩ : UploadReq).authHeader = none ∧
    (uploadHandler
      ⟨("123".toList), ("abc".toList), none, .ok ("id1".toList) ("t1".toList), .noCreds⟩
      ⟨none, some ("invoice.pdf".toList), some ("u1".toList),
       some ("data:application/pdf;base64,AAAA".toList), some ("Acme".toList), some 5⟩).1.status
      ≠ 401 ∧
    (uploadHandler
      ⟨("123".toList), ("abc".toList), none, .ok ("id1".toList) ("t1".toList), .noCreds⟩
      ⟨none, some ("invoice.pdf".toList), some ("u1".toList),
       some ("data:application/pdf;base64,AAAA".toList), some ("Acme".toList), some 5⟩).1.status
      = 200 ∧
    (uploadHandler
      ⟨("123".toList), ("abc".toList), none, .ok ("id1".toList) ("t1".toList), .noCreds⟩
      ⟨none, some ("invoice.pdf".toList), some ("u1".toList),
       some ("data:application/pdf;base64,AAAA".toList), some ("Acme".toList), some 5⟩).2.length
      = 2 := by
  refine ⟨rfl, by decide, by decide, by decide⟩

/-- Claim C1 (amended): the organization endpoints reject a missing or
invalid bearer token with 401 before any database access, while the
invoice upload and analyze endpoints perform no bearer-token check at
all — their behaviour is independent of the authorization header. -/
theorem claimC1_amended (lenv : OrgListEnv) (cenv : OrgCreateEnv)
    (req : OrgCreateReq) (uenv : UploadEnv) (ureq : UploadReq)
    (aenv : AnalyzeEnv) (areq : AnalyzeReq) :
    (orgListHandler lenv none = (⟨401, .unauthorized⟩, [])) ∧
    (∀ m h k, lenv.auth = .err m → lenv.anonKey = some k →
      (orgListHandler lenv (some h)).1.status = 401 ∧
      ∀ e ∈ (orgListHandler lenv (some h)).2, e.isDb = false) ∧
    (req.authHeader = none → orgCreateHandler cenv req = (⟨401, .unauthorized⟩, [])) ∧
    (∀ m h k, cenv.auth = .err m → req.authHeader = some h →
      blankFalsy req.name = false → cenv.anonKey = some k →
      (orgCreateHandler cenv req).1.status = 401 ∧
      ∀ e ∈ (orgCreateHandler cenv req).2, e.isDb = false) ∧
    (∀ h1 h2, uploadHandler uenv { ureq with authHeader := h1 } =
      uploadHandler uenv { ureq with authHeader := h2 }) ∧
    (∀ h1 h2, analyzeHandler aenv { areq with authHeader := h1 } =
      analyzeHandler aenv { areq with authHeader := h2 }) := by
  refine ⟨rfl, ?_, ?_, ?_, fun h1 h2 => rfl, fun h1 h2 => rfl⟩
  · intro m h k hm hk
    rcases lenv with ⟨ak, au, ms⟩
    cases hm
    cases hk
    simp [orgListHandler, OrgEffect.isDb]
  · intro hn
    simp [orgCreateHandler, hn]
  · intro m h k hm hh hbn hk
    rcases req with ⟨ah, nm, tid⟩
    rcases cenv with ⟨ak, au, oi, mi⟩
    cases hh
    cases hm
    cases hk
    simp_all [orgCreateHandler, OrgEffect.isDb]

/-- Witness for C1 (amended) at a concrete invalid-token request. -/
theorem claimC1_amended_witness :
    (orgListHandler ⟨some ("k".toList), .err ("bad jwt".toList), .ok []⟩
      (some ("Bearer nope".toList))).1.status = 401 :=
  ((claimC1_amended ⟨some ("k".toList), .err ("bad jwt".toList), .ok []⟩
      ⟨some ("k".toList), .user ("u".toList), .ok ⟨[], [], none, []⟩, none⟩
      ⟨none, none, none⟩
      ⟨[], [], none, .ok [] [], .noCreds⟩
      ⟨none, none, none, none, none, none⟩
      ⟨none, .noContent⟩ ⟨none, none, none⟩).2.1
    ("bad jwt".toList) ("Bearer nope".toList) ("k".toList) rfl rfl).1

/-- Counterexample for C6 as stated: a payload whose base64 body is
malformed is not rejected with a 400 invalid-payload error; the decode
throws and the catch-all handler answers 500 Internal server error. -/
theorem claimC6_counterexample :
    uploadHandler
      ⟨("123".toList), ("abc".toList), none, .ok ("id1".toList) ("t1".toList), .noCreds⟩
      ⟨none, some ("invoice.pdf".toList), some ("u1".toList),
       some ("data:application/pdf;base64,%%%%".toList), some ("Acme".toList), some 5⟩ =
      (⟨500, .errInternal⟩, []) ∧
    (uploadHandler
      ⟨("123".toList), ("abc".toList), none, .ok ("id1".toList) ("t1".toList), .noCreds⟩
      ⟨none, some ("invoice.pdf".toList), some ("u1".toList),
       some ("data:application/pdf;base64,%%%%".toList), some ("Acme".toList), some 5⟩).1.status
      ≠ 400 := by
  refine ⟨by decide, by decide⟩

/-- Claim C6 (amended): a payload lacking the delimiter is rejected with
the 400 invalid-format error; a payload whose base64 body is malformed
makes the decode throw, answered by the catch-all as 500 Internal server
error; in both cases the decode is all-or-nothing and no storage write
or database insert occurs. -/
theorem claimC6_amended (env : UploadEnv) (req : UploadReq) (fd : Str)
    (h1 : strFalsy req.userId = false) (h2 : strFalsy req.fileData = false)
    (h3 : blankFalsy req.supplierName = false) (h4 : amtFalsy req.totalAmount = false)
    (hfd : req.fileData = some fd) :
    (base64Part fd = none → uploadHandler env req = (⟨400, .errInvalidFormat⟩, [])) ∧
    (∀ b, base64Part fd = some b → jsAtob b = none →
      uploadHandler env req = (⟨500, .errInternal⟩, [])) ∧
    uploadMsg .errInvalidFormat = ("Invalid file data format".toList) ∧
    uploadMsg .errInternal = ("Internal server error".toList) := by
  have h2f : strFalsy (some fd) = false := by rw [← hfd]; exact h2
  refine ⟨?_, ?_, by decide, by decide⟩
  · intro hb
    simp [uploadHandler, h1, h2f, h3, h4, hfd, hb]
  · intro b hb ha
    simp [uploadHandler, h1, h2f, h3, h4, hfd, hb, ha]

/-- Witness for C6 (amended) at a concrete delimiterless payload. -/
theorem claimC6_amended_witness :
    uploadHandler
      ⟨("123".toList), ("abc".toList), none, .ok ("id1".toList) ("t1".toList), .noCreds⟩
      ⟨none, some ("invoice.pdf".toList), some ("u1".toList),
       some ("nodelimiter".toList), some ("Acme".toList), some 5⟩ =
      (⟨400, .errInvalidFormat⟩, []) :=
  (claimC6_amended
    ⟨("123".toList), ("abc".toList), none, .ok ("id1".toList) ("t1".toList), .noCreds⟩
    ⟨none, some ("invoice.pdf".toList), some ("u1".toList),
     some ("nodelimiter".toList), some ("Acme".toList), some 5⟩
    ("nodelimiter".toList)
    (by decide) (by decide) (by decide) (by decide) rfl).1 (by decide)

/-! ### Helper lemmas for the code-fence stripping pipeline -/

theorem stripFence_nil (c : Char) (pt : Str) : stripFence c pt [] = [] := by
  rw [stripFence]

theorem stripFence_cons_none {c : Char} {pt : Str} {a : Char} {s : Str}
    (h : dropPref (c :: pt) (a :: s) = none) :
    stripFence c pt (a :: s) = a :: stripFence c pt s := by
  rw [stripFence]
  split
  · next rest heq => rw [h] at heq; exact absurd heq (by simp)
  · rfl

theorem stripFence_cons_some {c : Char} {pt : Str} {a : Char} {s rest : Str}
    (h : dropPref (c :: pt) (a :: s) = some rest) :
    stripFence c pt (a :: s) = stripFence c pt (dropNL rest) := by
  rw [stripFence]
  split
  · next rest2 heq =>
    rw [h] at heq
    cases heq
    rfl
  · next heq => rw [h] at heq; exact absurd heq (by simp)

theorem dropPref_append (p r : Str) : dropPref p (p ++ r) = some r := by
  induction p with
  | nil => simp [dropPref]
  | cons a ps ih => simp [dropPref, ih]

theorem stripFence_pass {c : Char} {pt : Str} {l : Str} (r : Str)
    (hl : ∀ a ∈ l, a ≠ c) :
    stripFence c pt (l ++ r) = l ++ stripFence c pt r := by
  induction l with
  | nil => simp
  | cons a t ih =>
    have ha : a ≠ c := hl a (by simp)
    have hnone : dropPref (c :: pt) (a :: (t ++ r)) = none := by
      simp only [dropPref]
      rw [if_neg (fun hh => ha hh.symm)]
    rw [List.cons_append, stripFence_cons_none hnone,
      ih (fun x hx => hl x (by simp [hx]))]
    rfl

theorem stripFence_match (c : Char) (pt rest : Str) :
    stripFence c pt ((c :: pt) ++ rest) = stripFence c pt (dropNL rest) :=
  stripFence_cons_some (dropPref_append (c :: pt) rest)

theorem jsTrim_eq_self (l : Str) (a : Char) (l1 : Str) (b : Char) (l2 : Str)
    (hhead : l = a :: l1) (hlast : l = l2 ++ [b])
    (ha : jsWs a = false) (hb : jsWs b = false) : jsTrim l = l := by
  unfold jsTrim
  have hdw : l.dropWhile jsWs = l := by
    rw [hhead, List.dropWhile_cons, ha]
    simp
  rw [hdw]
  have hrev : l.reverse = b :: l2.reverse := by
    rw [hlast]
    simp
  rw [hrev, List.dropWhile_cons, hb]
  simp [← hrev]

theorem jsTrim_drop_trailing_nl (l : Str) (a : Char) (l1 : Str) (b : Char) (l2 : Str)
    (hhead : l = a :: l1) (hlast : l = l2 ++ [b])
    (ha : jsWs a = false) (hb : jsWs b = false) :
    jsTrim (l ++ ['\n']) = l := by
  unfold jsTrim
  have hdw : (l ++ ['\n']).dropWhile jsWs = l ++ ['\n'] := by
    rw [hhead, List.cons_append, List.dropWhile_cons, ha]
    simp
  rw [hdw]
  have hrev : (l ++ ['\n']).reverse = '\n' :: (b :: l2.reverse) := by
    rw [hlast]
    simp
  rw [hrev, List.dropWhile_cons]
  have : jsWs '\n' = true := by decide
  rw [this, List.dropWhile_cons, hb]
  have : (b :: l2.reverse) = l.reverse := by
    rw [hlast]
    simp
  simp [this]

theorem parseStringLit_clean {t : Str}
    (ht : ∀ c ∈ t, c ≠ '"' ∧ c ≠ '\\' ∧ 32 ≤ c.toNat) (r : Str) :
    parseStringLit (t ++ '"' :: r) = some (t, r) := by
  induction t with
  | nil =>
    rw [List.nil_append, parseStringLit.eq_def]
    simp
  | cons c t ih =>
    obtain ⟨h1, h2, h3⟩ := ht c (by simp)
    have hlt : ¬ c.toNat < 32 := by omega
    have hrec := ih (fun x hx => ht x (by simp [hx]))
    rw [List.cons_append, parseStringLit.eq_def]
    simp only [if_neg h1, if_neg h2, hlt, if_false, hrec]

theorem takeWhile_digits {l : Str} (hall : ∀ c ∈ l, c.isDigit = true)
    (r : Str) : (l ++ '}' :: r).takeWhile Char.isDigit = l := by
  induction l with
  | nil => simp [List.takeWhile_cons]
  | cons c t ih =>
    simp only [List.cons_append, List.takeWhile_cons, hall c (by simp)]
    rw [ih (fun x hx => hall x (by simp [hx]))]
    simp

theorem digit_ne {d : Char} (hd : d.isDigit = true) (x : Char)
    (hx : x.isDigit = false) : d ≠ x := by
  rintro rfl
  rw [hd] at hx
  cases hx

theorem parseNumber_digits {ds : Str} (r : Str) (hne : ds ≠ [])
    (hall : ∀ c ∈ ds, c.isDigit = true)
    (hlz : 1 < ds.length → ds.head? ≠ some '0') :
    parseNumber (ds ++ '}' :: r) =
      some (.num ((ofDigits ds : ℕ) : ℚ), '}' :: r) := by
  obtain ⟨d, t, rfl⟩ := List.exists_cons_of_ne_nil hne
  have hd : d.isDigit = true := hall d (by simp)
  have htw : ((d :: t) ++ '}' :: r).takeWhile Char.isDigit = d :: t :=
    takeWhile_digits hall r
  have hdrop : ((d :: t) ++ '}' :: r).drop (d :: t).length = '}' :: r :=
    List.drop_left _ _
  have hnolz : ¬((d :: t).length > 1 ∧ (d :: t).head? = some '0') := by
    rintro ⟨hl, hh⟩
    exact hlz hl (by simpa using hh)
  unfold parseNumber
  split
  · next rr heq =>
    rw [List.cons_append] at heq
    injection heq with hh _
    exact absurd hh (digit_ne hd '-' (by decide))
  · unfold parseNumCore
    rw [List.cons_append] at htw hdrop
    simp [htw, hdrop, hnolz]
    intro hlen heq0
    exact hlz (by simpa using Nat.succ_lt_succ hlen) (by simp [heq0])

theorem parseVal_str (f : ℕ) {s : Str}
    (hs : ∀ c ∈ s, c ≠ '"' ∧ c ≠ '\\' ∧ 32 ≤ c.toNat) (r : Str) :
    parseVal (f + 1) ('"' :: (s ++ '"' :: r)) = some (.str s, r) := by
  have h := parseStringLit_clean hs r
  simp [parseVal, jsSkipWs, h]

theorem parseVal_num (f : ℕ) {ds : Str} (r : Str) (hne : ds ≠ [])
    (hall : ∀ c ∈ ds, c.isDigit = true)
    (hlz : 1 < ds.length → ds.head? ≠ some '0') :
    parseVal (f + 1) (ds ++ '}' :: r) =
      some (.num ((ofDigits ds : ℕ) : ℚ), '}' :: r) := by
  have hnum := parseNumber_digits r hne hall hlz
  obtain ⟨d, t, rfl⟩ := List.exists_cons_of_ne_nil hne
  have hd : d.isDigit = true := hall d (by simp)
  have w1 : d ≠ ' ' := digit_ne hd ' ' (by decide)
  have w2 : d ≠ '\t' := digit_ne hd '\t' (by decide)
  have w3 : d ≠ '\n' := digit_ne hd '\n' (by decide)
  have w4 : d ≠ '\r' := digit_ne hd '\r' (by decide)
  have n1 : d ≠ '{' := digit_ne hd '{' (by decide)
  have n2 : d ≠ '[' := digit_ne hd '[' (by decide)
  have n3 : d ≠ '"' := digit_ne hd '"' (by decide)
  have n4 : d ≠ 't' := digit_ne hd 't' (by decide)
  have n5 : d ≠ 'f' := digit_ne hd 'f' (by decide)
  have n6 : d ≠ 'n' := digit_ne hd 'n' (by decide)
  rw [List.cons_append]
  rw [List.cons_append] at hnum
  simp [parseVal, jsSkipWs, w1, w2, w3, w4, n1, n2, n3, n4, n5, n6, hnum]

theorem parseMembers_member2 (f : ℕ) {ds : Str} (hne : ds ≠ [])
    (hall : ∀ c ∈ ds, c.isDigit = true)
    (hlz : 1 < ds.length → ds.head? ≠ some '0') :
    parseMembers (f + 2) ('"' :: (key2 ++ ('"' :: ':' :: (ds ++ ['}'])))) =
      some ([(key2, .num ((ofDigits ds : ℕ) : ℚ))], []) := by
  have hkey2 := parseStringLit_clean (t := key2) (by decide) (':' :: (ds ++ ['}']))
  have hval2 := parseVal_num f [] hne hall hlz
  simp [parseMembers, jsSkipWs, hkey2, hval2]

theorem parseMembers_inner (f : ℕ) {s ds : Str} (hs : sClean s)
    (hne : ds ≠ []) (hall : ∀ c ∈ ds, c.isDigit = true)
    (hlz : 1 < ds.length → ds.head? ≠ some '0') :
    parseMembers (f + 3) (canonInner s ds) =
      some ([(key1, .str s), (key2, .num ((ofDigits ds : ℕ) : ℚ))], []) := by
  have hsP : ∀ c ∈ s, c ≠ '"' ∧ c ≠ '\\' ∧ 32 ≤ c.toNat :=
    fun c hc => ⟨(hs c hc).1, (hs c hc).2.1, (hs c hc).2.2.1⟩
  have hkey1 := parseStringLit_clean (t := key1) (by decide)
    (':' :: '"' :: (s ++ ('"' :: ',' :: '"' :: (key2 ++ ('"' :: ':' :: (ds ++ ['}']))))))
  have hval1 := parseVal_str (f + 1) hsP
    (',' :: '"' :: (key2 ++ ('"' :: ':' :: (ds ++ ['}']))))
  have hm2 := parseMembers_member2 f hne hall hlz
  rw [canonInner]
  rw [show f + 3 = (f + 2) + 1 from rfl, parseMembers.eq_def]
  simp [jsSkipWs, hkey1, hval1, hm2]

theorem parseVal_canon (f : ℕ) {s ds : Str} (hs : sClean s)
    (hne : ds ≠ []) (hall : ∀ c ∈ ds, c.isDigit = true)
    (hlz : 1 < ds.length → ds.head? ≠ some '0') :
    parseVal (f + 4) (canonJson s ds) =
      some (.obj [(key1, .str s), (key2, .num ((ofDigits ds : ℕ) : ℚ))], []) := by
  have hm := parseMembers_inner f hs hne hall hlz
  rw [canonInner] at hm
  rw [canonJson, canonInner]
  rw [show f + 4 = (f + 3) + 1 from rfl, parseVal.eq_def]
  simp [jsSkipWs, hm]

theorem jsonParse_canon {s ds : Str} (hs : sClean s)
    (hne : ds ≠ []) (hall : ∀ c ∈ ds, c.isDigit = true)
    (hlz : 1 < ds.length → ds.head? ≠ some '0') :
    jsonParse (canonJson s ds) =
      some (.obj [(key1, .str s), (key2, .num ((ofDigits ds : ℕ) : ℚ))]) := by
  unfold jsonParse
  have hlen : 3 ≤ (canonJson s ds).length := by
    simp [canonJson, canonInner]
    omega
  obtain ⟨g, hg⟩ : ∃ g, (canonJson s ds).length + 1 = g + 4 :=
    ⟨(canonJson s ds).length - 3, by omega⟩
  rw [hg, parseVal_canon g hs hne hall hlz]
  simp [jsSkipWs]

theorem canonJson_no_tick {s ds : Str} (hs : ∀ c ∈ s, c ≠ '`')
    (hds : ∀ c ∈ ds, c.isDigit = true) :
    ∀ a ∈ canonJson s ds, a ≠ '`' := by
  intro a ha h0
  subst h0
  simp [canonJson, canonInner, key1, key2] at ha
  rcases ha with h | h
  · exact hs _ h rfl
  · exact absurd (hds _ h) (by decide)

theorem dropWhile_ws_append {w l : Str} (hw : ∀ c ∈ w, jsWs c = true) :
    (w ++ l).dropWhile jsWs = l.dropWhile jsWs := by
  induction w with
  | nil => rfl
  | cons a t ih =>
    simp [List.dropWhile_cons, hw a (by simp),
      ih (fun x hx => hw x (by simp [hx]))]

theorem jsTrim_padded {w1 w2 : Str} (l : Str) (a : Char) (l1 : Str) (b : Char) (l2 : Str)
    (hhead : l = a :: l1) (hlast : l = l2 ++ [b])
    (ha : jsWs a = false) (hb : jsWs b = false)
    (hw1 : ∀ c ∈ w1, jsWs c = true) (hw2 : ∀ c ∈ w2, jsWs c = true) :
    jsTrim (w1 ++ (l ++ w2)) = l := by
  unfold jsTrim
  rw [dropWhile_ws_append hw1]
  have h1 : (l ++ w2).dropWhile jsWs = l ++ w2 := by
    rw [hhead, List.cons_append, List.dropWhile_cons, ha]
    simp
  rw [h1, List.reverse_append,
    dropWhile_ws_append (fun c hc => hw2 _ (List.mem_reverse.mp hc))]
  have hrev : l.reverse = b :: l2.reverse := by
    rw [hlast]
    simp
  rw [hrev, List.dropWhile_cons, hb]
  simp [← hrev]

theorem stripFence_json_tail :
    stripFence '`' patJsonTail ('\n' :: '`' :: '`' :: ['`']) =
      '\n' :: '`' :: '`' :: ['`'] := by
  rw [stripFence_cons_none (by decide), stripFence_cons_none (by decide),
    stripFence_cons_none (by decide), stripFence_cons_none (by decide),
    stripFence_nil]

theorem stripFence_tick_tail :
    stripFence '`' patTickTail ('\n' :: '`' :: '`' :: ['`']) = ['\n'] := by
  rw [stripFence_cons_none (by decide)]
  rw [show ('`' :: '`' :: ['`'] : Str) = ('`' :: patTickTail) ++ [] from rfl]
  rw [stripFence_match]
  rw [show dropNL [] = [] from rfl, stripFence_nil]

theorem canonJson_last (s ds : Str) :
    canonJson s ds =
      ('{' :: ('"' :: (key1 ++ ('"' :: ':' :: '"' ::
        (s ++ ('"' :: ',' :: '"' ::
          (key2 ++ ('"' :: ':' :: ds)))))))) ++ ['}'] := by
  simp [canonJson, canonInner, List.append_assoc]

theorem fencedTagged_last (s ds : Str) :
    fencedTagged s ds =
      (('`' :: patJsonTail) ++
        ('\n' :: (canonJson s ds ++ ('\n' :: '`' :: ['`'])))) ++ ['`'] := by
  simp [fencedTagged, List.append_assoc]

theorem fencedBare_last (s ds : Str) :
    fencedBare s ds =
      (('`' :: patTickTail) ++
        ('\n' :: (canonJson s ds ++ ('\n' :: '`' :: ['`'])))) ++ ['`'] := by
  simp [fencedBare, List.append_assoc]

theorem strip_tick_canon {s ds : Str} (hs : ∀ c ∈ s, c ≠ '`')
    (hds : ∀ c ∈ ds, c.isDigit = true) :
    stripFence '`' patTickTail
        (canonJson s ds ++ ('\n' :: '`' :: '`' :: ['`'])) =
      canonJson s ds ++ ['\n'] := by
  rw [stripFence_pass _ (canonJson_no_tick hs hds), stripFence_tick_tail]

theorem stripFences_tagged {w1 w2 s ds : Str}
    (hw1 : ∀ c ∈ w1, jsWs c = true) (hw2 : ∀ c ∈ w2, jsWs c = true)
    (hs : ∀ c ∈ s, c ≠ '`') (hds : ∀ c ∈ ds, c.isDigit = true) :
    stripFences (w1 ++ (fencedTagged s ds ++ w2)) = canonJson s ds := by
  unfold stripFences
  rw [jsTrim_padded (fencedTagged s ds) '`' (patJsonTail ++
      ('\n' :: (canonJson s ds ++ ('\n' :: '`' :: '`' :: ['`'])))) '`'
      (('`' :: patJsonTail) ++ ('\n' :: (canonJson s ds ++ ('\n' :: '`' :: ['`']))))
      rfl (fencedTagged_last s ds) (by decide) (by decide) hw1 hw2]
  dsimp only
  rw [show hasPref ('`' :: patJsonTail) (fencedTagged s ds) = true from by
    rw [fencedTagged]
    unfold hasPref
    rw [dropPref_append]
    rfl]
  rw [if_pos rfl]
  rw [show stripFence '`' patJsonTail (fencedTagged s ds) =
      stripFence '`' patJsonTail
        (canonJson s ds ++ ('\n' :: '`' :: '`' :: ['`'])) from by
    rw [fencedTagged, stripFence_match]
    simp [dropNL]]
  rw [stripFence_pass _ (canonJson_no_tick hs hds), stripFence_json_tail,
    strip_tick_canon hs hds,
    jsTrim_drop_trailing_nl (canonJson s ds) '{' (canonInner s ds)
      '}' ('{' :: ('"' :: (key1 ++ ('"' :: ':' :: '"' ::
        (s ++ ('"' :: ',' :: '"' :: (key2 ++ ('"' :: ':' :: ds))))))))
      rfl (canonJson_last s ds) (by decide) (by decide)]

theorem stripFences_bare {w1 w2 s ds : Str}
    (hw1 : ∀ c ∈ w1, jsWs c = true) (hw2 : ∀ c ∈ w2, jsWs c = true)
    (hs : ∀ c ∈ s, c ≠ '`') (hds : ∀ c ∈ ds, c.isDigit = true) :
    stripFences (w1 ++ (fencedBare s ds ++ w2)) = canonJson s ds := by
  unfold stripFences
  rw [jsTrim_padded (fencedBare s ds) '`' (patTickTail ++
      ('\n' :: (canonJson s ds ++ ('\n' :: '`' :: '`' :: ['`'])))) '`'
      (('`' :: patTickTail) ++ ('\n' :: (canonJson s ds ++ ('\n' :: '`' :: ['`']))))
      rfl (fencedBare_last s ds) (by decide) (by decide) hw1 hw2]
  dsimp only
  rw [show hasPref ('`' :: patJsonTail) (fencedBare s ds) = false from by
    simp [hasPref, fencedBare, patJsonTail, patTickTail, dropPref]]
  rw [if_neg (by simp)]
  rw [show hasPref ('`' :: patTickTail) (fencedBare s ds) = true from by
    rw [fencedBare]
    unfold hasPref
    rw [dropPref_append]
    rfl]
  rw [if_pos rfl]
  rw [show stripFence '`' patTickTail (fencedBare s ds) =
      stripFence '`' patTickTail
        (canonJson s ds ++ ('\n' :: '`' :: '`' :: ['`'])) from by
    rw [fencedBare, stripFence_match]
    simp [dropNL]]
  rw [strip_tick_canon hs hds,
    jsTrim_drop_trailing_nl (canonJson s ds) '{' (canonInner s ds)
      '}' ('{' :: ('"' :: (key1 ++ ('"' :: ':' :: '"' ::
        (s ++ ('"' :: ',' :: '"' :: (key2 ++ ('"' :: ':' :: ds))))))))
      rfl (canonJson_last s ds) (by decide) (by decide)]

theorem parseContentStep_canon {t s ds : Str}
    (hstrip : stripFences t = canonJson s ds)
    (hs : sClean s) (hs0 : s ≠ [])
    (hne : ds ≠ []) (hall : ∀ c ∈ ds, c.isDigit = true)
    (hlz : 1 < ds.length → ds.head? ≠ some '0')
    (hz : ofDigits ds ≠ 0) :
    parseContentStep t =
      ⟨200, .ok (.str s) (.num ((ofDigits ds : ℕ) : ℚ))⟩ := by
  unfold parseContentStep
  rw [hstrip, jsonParse_canon hs hne hall hlz]
  have hk12 : ¬(key2 = key1) := by decide
  simp [getField, lookupLast, orNull, jsTruthy, hk12, hs0, hz]

/-- Claim C7: a successful model reply wrapping the canonical JSON object
in one layer of code-fence markers, lang-tagged or bare, possibly with
surrounding whitespace, is stripped and parsed: the analyze handler
returns the 200 success response carrying the parsed supplier name and
total amount. -/
theorem claimC7 (env : AnalyzeEnv) (req : AnalyzeReq) (k fd w1 w2 s ds : Str)
    (hk : env.apiKey = some k) (hfd : req.fileData = some fd) (hfne : fd ≠ [])
    (hw1 : ∀ c ∈ w1, jsWs c = true) (hw2 : ∀ c ∈ w2, jsWs c = true)
    (hs : sClean s) (hs0 : s ≠ [])
    (hds0 : ds ≠ []) (hall : ∀ c ∈ ds, c.isDigit = true)
    (hlz : 1 < ds.length → ds.head? ≠ some '0') (hz : ofDigits ds ≠ 0) :
    (env.gemini = .content (w1 ++ (fencedTagged s ds ++ w2)) →
      analyzeHandler env req =
        ⟨200, .ok (.str s) (.num ((ofDigits ds : ℕ) : ℚ))⟩) ∧
    (env.gemini = .content (w1 ++ (fencedBare s ds ++ w2)) →
      analyzeHandler env req =
        ⟨200, .ok (.str s) (.num ((ofDigits ds : ℕ) : ℚ))⟩) := by
  have hsC : ∀ c ∈ s, c ≠ '`' := fun c hc => (hs c hc).2.2.2
  have hsf : strFalsy req.fileData = false := by
    rw [hfd]
    simpa [strFalsy] using hfne
  constructor
  · intro hg
    rw [show analyzeHandler env req =
        parseContentStep (w1 ++ (fencedTagged s ds ++ w2)) from by
      simp [analyzeHandler, hk, hsf, hg]]
    exact parseContentStep_canon (stripFences_tagged hw1 hw2 hsC hall)
      hs hs0 hds0 hall hlz hz
  · intro hg
    rw [show analyzeHandler env req =
        parseContentStep (w1 ++ (fencedBare s ds ++ w2)) from by
      simp [analyzeHandler, hk, hsf, hg]]
    exact parseContentStep_canon (stripFences_bare hw1 hw2 hsC hall)
      hs hs0 hds0 hall hlz hz

/-- Witness for C7: the scenario reply with supplier `Google` and amount
`1500` inside a lang-tagged fence parses to the success result. -/
theorem claimC7_witness :
    analyzeHandler
      ⟨some ("k".toList),
       .content (fencedTagged ("Google".toList) ("1500".toList))⟩
      ⟨none, some ("data:image/png;base64,AAAA".toList), none⟩ =
      ⟨200, .ok (.str ("Google".toList))
        (.num ((ofDigits ("1500".toList) : ℕ) : ℚ))⟩ := by
  have h := (claimC7
    ⟨some ("k".toList),
     .content (fencedTagged ("Google".toList) ("1500".toList))⟩
    ⟨none, some ("data:image/png;base64,AAAA".toList), none⟩
    ("k".toList) ("data:image/png;base64,AAAA".toList) [] []
    ("Google".toList) ("1500".toList)
    rfl rfl (by decide) (by simp) (by simp)
    (by decide) (by decide) (by decide) (by decide) (by decide) (by decide)).1
  simpa using h (by simp)

/-- Counterexample for C4 as stated: when the model call fails at the
transport level the analyze handler does not return a degraded result
with both fields null; it returns HTTP 500 with an error body carrying
no supplier_name/total_amount fields. -/
theorem claimC4_counterexample :
    analyzeHandler ⟨some ("k".toList), .fetchErr ("connection reset".toList)⟩
      ⟨none, some ("data:image/png;base64,AAAA".toList), none⟩ =
      ⟨500, .networkError ("connection reset".toList)⟩ ∧
    (analyzeHandler ⟨some ("k".toList), .fetchErr ("connection reset".toList)⟩
      ⟨none, some ("data:image/png;base64,AAAA".toList), none⟩).status ≠ 200 ∧
    (analyzeHandler ⟨some ("k".toList), .fetchErr ("connection reset".toList)⟩
      ⟨none, some ("data:image/png;base64,AAAA".toList), none⟩).body.hasNullFields
      = false :=
  ⟨rfl, by decide, rfl⟩

/-- Claim C4 (amended): a transport failure or a non-ok status of the
model call yields an HTTP 500 error response without null fields (the
handler catches rather than throws); the degraded null-field 200
responses arise exactly for a reply without text content or a text that
fails to parse; and a fully successful upload succeeds independently of
extraction. -/
theorem claimC4_amended (env : AnalyzeEnv) (req : AnalyzeReq) (k fd : Str)
    (hk : env.apiKey = some k) (hfd : req.fileData = some fd) (hfne : fd ≠ []) :
    (∀ m, env.gemini = .fetchErr m →
      analyzeHandler env req = ⟨500, .networkError m⟩ ∧
      (AnalyzeBody.networkError m).hasNullFields = false) ∧
    (∀ st stx b, env.gemini = .httpError st stx b →
      analyzeHandler env req = ⟨500, .apiError st stx b⟩ ∧
      (AnalyzeBody.apiError st stx b).hasNullFields = false) ∧
    (env.gemini = .noContent →
      analyzeHandler env req = ⟨200, .noContentBody⟩ ∧
      AnalyzeBody.noContentBody.hasNullFields = true) ∧
    (∀ text, env.gemini = .content text → jsonParse (stripFences text) = none →
      analyzeHandler env req = ⟨200, .parseFail text⟩ ∧
      (AnalyzeBody.parseFail text).hasNullFields = true) ∧
    (∀ (uenv : UploadEnv) (ureq : UploadReq) id created,
      uenv.insert = .ok id created → uenv.storageError = none →
      reachesStorage ureq → (uploadHandler uenv ureq).1.status = 200) := by
  have hsf : strFalsy req.fileData = false := by
    rw [hfd]
    simpa [strFalsy] using hfne
  refine ⟨?_, ?_, ?_, ?_, ?_⟩
  · intro m hg
    exact ⟨by simp [analyzeHandler, hk, hsf, hg], rfl⟩
  · intro st stx b hg
    exact ⟨by simp [analyzeHandler, hk, hsf, hg], rfl⟩
  · intro hg
    exact ⟨by simp [analyzeHandler, hk, hsf, hg], rfl⟩
  · intro text hg hp
    refine ⟨?_, rfl⟩
    rw [show analyzeHandler env req = parseContentStep text from by
      simp [analyzeHandler, hk, hsf, hg]]
    unfold parseContentStep
    rw [hp]
  · rintro uenv ureq id created hins hse ⟨h1, h2, h3, h4, b, bytes, hb, hbytes⟩
    simp [uploadHandler, h1, h2, h3, h4, hb, hbytes, hse, hins]

/-- Witness for C4 (amended) at a concrete non-ok model response. -/
theorem claimC4_amended_witness :
    analyzeHandler
      ⟨some ("k".toList), .httpError 403 ("Forbidden".toList) ("quota".toList)⟩
      ⟨none, some ("data:image/png;base64,AAAA".toList), none⟩ =
      ⟨500, .apiError 403 ("Forbidden".toList) ("quota".toList)⟩ :=
  (((claimC4_amended
    ⟨some ("k".toList), .httpError 403 ("Forbidden".toList) ("quota".toList)⟩
    ⟨none, some ("data:image/png;base64,AAAA".toList), none⟩
    ("k".toList) ("data:image/png;base64,AAAA".toList)
    rfl rfl (by decide)).2.1 403 ("Forbidden".toList) ("quota".toList) rfl).1)

end Inv
